import Mathlib

/-!
Verification of the control core of kovasky/idrac-pid-fan-control.

Shallow embedding conventions:
* Python ints become ℤ (ℕ for the error counter), Python floats become ℚ.
* Fallible hardware reads become Option values, fallible commands become Bool
  outcomes (true = exit code 0), supplied to each tick as oracle inputs.
* List indexing uses List.getI (total, default 0); every indexed access in the
  source is guarded by the same emptiness/length checks the Python code makes,
  so the default value is never observed on the guarded paths.
-/

/-- Indexwise strict increase of an integer list (the calibration rpms are
sorted strictly ascending). -/
def strictIncrOn (l : List ℤ) : Prop :=
  ∀ j, j < l.length → ∀ i, i < j → l.getI i < l.getI j

instance strictIncrOn.dec (l : List ℤ) : Decidable (strictIncrOn l) :=
  inferInstanceAs (Decidable (∀ j, j < l.length → ∀ i, i < j → l.getI i < l.getI j))

/-- Indexwise monotone non-decrease of an integer list (calibration
percentages). -/
def monoNondecOn (l : List ℤ) : Prop :=
  ∀ j, j < l.length → ∀ i, i ≤ j → l.getI i ≤ l.getI j

instance monoNondecOn.dec (l : List ℤ) : Decidable (monoNondecOn l) :=
  inferInstanceAs (Decidable (∀ j, j < l.length → ∀ i, i ≤ j → l.getI i ≤ l.getI j))

/-- Slope of the interpolation segment built in iteration i of the loop in
helpers.get_slopes_and_intercepts: (y2 - y1) / (x2 - x1) for the point pair
(i-1, i). -/
def slopeAt (fan_speeds rpms : List ℤ) (i : ℕ) : ℚ :=
  ((fan_speeds.getI i : ℚ) - (fan_speeds.getI (i - 1) : ℚ)) /
    ((rpms.getI i : ℚ) - (rpms.getI (i - 1) : ℚ))

/-- Intercept of the interpolation segment built in iteration i of the loop in
helpers.get_slopes_and_intercepts: y1 - slope * x1. -/
def interceptAt (fan_speeds rpms : List ℤ) (i : ℕ) : ℚ :=
  (fan_speeds.getI (i - 1) : ℚ) - slopeAt fan_speeds rpms i * (rpms.getI (i - 1) : ℚ)

/-- helpers.get_slopes_and_intercepts: guard clause returning two empty lists on
empty or length-mismatched input, else one slope and one intercept per loop
index i in range(1, len(fan_speeds)). -/
def get_slopes_and_intercepts (fan_speeds rpms : List ℤ) : List ℚ × List ℚ :=
  if fan_speeds = [] ∨ rpms = [] ∨ fan_speeds.length ≠ rpms.length then ([], [])
  else
    ((List.range' 1 (fan_speeds.length - 1)).map (slopeAt fan_speeds rpms),
     (List.range' 1 (fan_speeds.length - 1)).map (interceptAt fan_speeds rpms))

/-- The final for-loop of helpers.get_fan_speed_percent: scanning indices
i = 1, 2, ... over the rpm list, return slopes[i-1] * rpm + intercepts[i-1] at
the first index with rpm < rpms[i], and -1 if the loop runs off the end.  The
iteration over indices i of the source loop is realised structurally on the
list suffix that starts at index i (the suffix is empty exactly when the
source loop's index check fails), with i carried along for the slope and
intercept lookups. -/
def interp_from (rpm : ℤ) (slopes intercepts : List ℚ) : List ℤ → ℕ → ℚ
  | [], _ => -1
  | r :: rest, i =>
    if rpm < r then
      slopes.getI (i - 1) * (rpm : ℚ) + intercepts.getI (i - 1)
    else
      interp_from rpm slopes intercepts rest (i + 1)

/-- helpers.get_fan_speed_percent: None or empty-list guard, clamp below the
first calibration rpm, clamp above the last, exact table lookup when rpm is a
calibration point, else linear interpolation on the bracketing segment. -/
def get_fan_speed_percent (rpm : Option ℤ) (fan_speeds rpms : List ℤ)
    (slopes intercepts : List ℚ) : ℚ :=
  match rpm with
  | none => -1
  | some rpm =>
    if rpms = [] ∨ fan_speeds = [] then -1
    else if rpm < rpms.getI 0 then (fan_speeds.getI 0 : ℚ)
    else if rpms.getI (rpms.length - 1) < rpm then
      (fan_speeds.getI (fan_speeds.length - 1) : ℚ)
    else if rpm ∈ rpms then (fan_speeds.getI (rpms.indexOf rpm) : ℚ)
    else interp_from rpm slopes intercepts (rpms.drop 1) 1

/-- Configuration held by pid.PID after __init__: thresholds, gains and the
calibration data; min_fan_speed and max_fan_speed are fan_speeds[0] and
fan_speeds[-1]. -/
structure PIDConfig where
  desired_temp : ℤ
  max_temp : ℤ
  k_proportional : ℚ
  k_integral : ℚ
  k_derivative : ℚ
  fan_speeds : List ℤ
  rpms : List ℤ
  slopes : List ℚ
  intercepts : List ℚ
deriving DecidableEq

/-- pid.PID min_fan_speed = fan_speeds[0]. -/
def PIDConfig.min_fan_speed (cfg : PIDConfig) : ℚ := (cfg.fan_speeds.getI 0 : ℚ)

/-- pid.PID max_fan_speed = fan_speeds[-1]. -/
def PIDConfig.max_fan_speed (cfg : PIDConfig) : ℚ :=
  (cfg.fan_speeds.getI (cfg.fan_speeds.length - 1) : ℚ)

/-- Mutable controller memory of pid.PID: last_run_time (0 is the unset
sentinel), integral_error, previous_error. -/
structure PIDState where
  last_run_time : ℚ
  integral_error : ℚ
  previous_error : ℚ
deriving DecidableEq

/-- Outcome of one pid.PID.step call: either the early return taken when the
temperature exceeds max_temp and the vendor-control command fails, or the
clamped fan-speed output (the value before the final one-decimal rounding at
the set_fan_speed_percent call site) together with the new controller state. -/
inductive StepResult where
  | earlyExit (st : PIDState)
  | output (speed : ℚ) (st : PIDState)
deriving DecidableEq

/-- The dt computation of pid.PID.step line 36: elapsed time since the previous
tick, or 0 on the first tick (sentinel last_run_time = 0). -/
def PID.dt (st : PIDState) (current_time : ℚ) : ℚ :=
  if st.last_run_time ≠ 0 then current_time - st.last_run_time else 0

/-- The integral accumulation of pid.PID.step line 49:
integral_error + error * dt. -/
def PID.integral (cfg : PIDConfig) (st : PIDState) (current_time : ℚ)
    (curr_temp : ℤ) : ℚ :=
  st.integral_error + ((curr_temp - cfg.desired_temp : ℤ) : ℚ) * PID.dt st current_time

/-- Lines 47-52 of pid.PID.step: the output fan speed before clamping,
curr_fan_speed + kp * error + ki * integral + kd * derivative. -/
def PID.unclampedOutput (cfg : PIDConfig) (st : PIDState) (current_time : ℚ)
    (curr_temp : ℤ) (curr_rpm : Option ℤ) : ℚ :=
  let dt := PID.dt st current_time
  let curr_fan_speed :=
    get_fan_speed_percent curr_rpm cfg.fan_speeds cfg.rpms cfg.slopes cfg.intercepts
  let error : ℚ := ((curr_temp - cfg.desired_temp : ℤ) : ℚ)
  let integral := PID.integral cfg st current_time curr_temp
  let derivative := if 0 < dt then (error - st.previous_error) / dt else 0
  let pid_output :=
    cfg.k_proportional * error + cfg.k_integral * integral + cfg.k_derivative * derivative
  curr_fan_speed + pid_output

/-- pid.PID.step: record the tick time, take the early return when curr_temp
exceeds max_temp and enabling vendor (DELL) fan control fails, otherwise run
the PID law and clamp the output to [min_fan_speed, max_fan_speed], zeroing
integral_error and previous_error on either clamped branch and storing this
tick's error otherwise. -/
def PID.step (cfg : PIDConfig) (st : PIDState) (current_time : ℚ)
    (curr_temp : ℤ) (dell_ok : Bool) (curr_rpm : Option ℤ) : StepResult :=
  if cfg.max_temp < curr_temp ∧ dell_ok = false then
    .earlyExit ⟨current_time, st.integral_error, st.previous_error⟩
  else if PID.unclampedOutput cfg st current_time curr_temp curr_rpm < cfg.min_fan_speed then
    .output cfg.min_fan_speed ⟨current_time, 0, 0⟩
  else if cfg.max_fan_speed < PID.unclampedOutput cfg st current_time curr_temp curr_rpm then
    .output cfg.max_fan_speed ⟨current_time, 0, 0⟩
  else
    .output (PID.unclampedOutput cfg st current_time curr_temp curr_rpm)
      ⟨current_time, PID.integral cfg st current_time curr_temp,
        ((curr_temp - cfg.desired_temp : ℤ) : ℚ)⟩

/-- Python round(x, 1) at the pid.PID.step call site of set_fan_speed_percent:
the output rounded to one decimal place.  (Python rounds exact decimal ties to
even; no input used below sits on a tie, so the rounding mode is immaterial.) -/
def roundTenth (x : ℚ) : ℚ := ((⌊10 * x + 1 / 2⌋ : ℤ) : ℚ) / 10

/-- remote_management.RemoteManagement.set_fan_speed_percent: rejects an
argument outside [0, 100] with exit code 1 before issuing the raw command;
cmd_ok is the oracle for the ipmitool invocation succeeding. -/
def set_fan_speed_percent (speed : ℤ) (cmd_ok : Bool) : ℕ :=
  if ¬(0 ≤ speed ∧ speed ≤ 100) then 1
  else if cmd_ok then 0 else 1

/-- Configuration read by main.main that the loop body consults. -/
structure LoopConfig where
  max_temp : ℤ
  hysteresis : ℤ
  step_delay : ℚ
deriving DecidableEq

/-- State threaded through iterations of the while-loop of main.main:
manual_mode (true = direct PID control, false = vendor automatic control) and
the consecutive temperature-read error counter. -/
structure LoopState where
  manual_mode : Bool
  consecutive_errors : ℕ
deriving DecidableEq

/-- Oracle inputs consumed by one iteration of the main loop: the temperature
read (none = failure), the outcomes of the two mode-change commands, the fan
rpm read, the PID result (none models the controller returning no value or
raising), the fan-write outcome, and the wall-clock work time of the tick. -/
structure TickInput where
  curr_temp : Option ℤ
  dell_ok : Bool
  manual_ok : Bool
  rpm : Option ℤ
  pid_speed : Option ℚ
  write_ok : Bool
  elapsed : ℚ
deriving DecidableEq

/-- Result of one iteration of the main loop: process exit, or continue into
the next iteration after sleeping for the given duration. -/
inductive TickResult where
  | exited
  | next (sleep : ℚ) (st : LoopState)
deriving DecidableEq

/-- Lines 178-203 and 217-220 of main.main: the PID section run after the mode
state machine, followed by the self-correcting remainder sleep.  In manual
mode a failed rpm read, a missing PID result or a negative PID result each
sleep a full step_delay and continue; the fan-write outcome is only logged.
Every path that reaches the bottom of the loop body sleeps
max(0, step_delay - elapsed). -/
def tickPidSection (cfg : LoopConfig) (st : LoopState) (inp : TickInput) : TickResult :=
  if st.manual_mode then
    match inp.rpm with
    | none => .next cfg.step_delay st
    | some _ =>
      match inp.pid_speed with
      | none => .next cfg.step_delay st
      | some v =>
        if v < 0 then .next cfg.step_delay st
        else .next (max 0 (cfg.step_delay - inp.elapsed)) st
  else .next (max 0 (cfg.step_delay - inp.elapsed)) st

/-- One iteration of the while-loop of main.main (lines 121-220): on a failed
temperature read, bump the consecutive-error counter, exit at the ceiling of
10, else sleep a full step_delay; on success reset the counter, run the mode
state machine (a failed mode-change command keeps the mode and sleeps a full
step_delay), then the PID section and the remainder sleep. -/
def tick (cfg : LoopConfig) (st : LoopState) (inp : TickInput) : TickResult :=
  match inp.curr_temp with
  | none =>
    if 10 ≤ st.consecutive_errors + 1 then .exited
    else .next cfg.step_delay ⟨st.manual_mode, st.consecutive_errors + 1⟩
  | some T =>
    let st1 : LoopState := ⟨st.manual_mode, 0⟩
    if cfg.max_temp < T ∧ st1.manual_mode then
      if inp.dell_ok then tickPidSection cfg ⟨false, 0⟩ inp
      else .next cfg.step_delay st1
    else if st1.manual_mode = false ∧ T ≤ cfg.max_temp - cfg.hysteresis then
      if inp.manual_ok then tickPidSection cfg ⟨true, 0⟩ inp
      else .next cfg.step_delay st1
    else tickPidSection cfg st1 inp

/-- Iterated main-loop ticks over a list of per-tick oracle inputs; none means
the process exited inside the run. -/
def runTicks (cfg : LoopConfig) : LoopState → List TickInput → Option LoopState
  | st, [] => some st
  | st, inp :: rest =>
    match tick cfg st inp with
    | .exited => none
    | .next _ st' => runTicks cfg st' rest

/-- Default calibration percentages from helpers.load_env_config. -/
def defaultFanSpeeds : List ℤ := [20, 30, 40, 50, 60]

/-- Default calibration rpms from helpers.load_env_config. -/
def defaultRpms : List ℤ := [1560, 2040, 2640, 2880, 3360]

/-- Slopes derived from the default calibration curve. -/
def defaultSlopes : List ℚ := (get_slopes_and_intercepts defaultFanSpeeds defaultRpms).1

/-- Intercepts derived from the default calibration curve. -/
def defaultIntercepts : List ℚ := (get_slopes_and_intercepts defaultFanSpeeds defaultRpms).2

/-- Concrete controller configuration for worked examples: desired 60, max 80,
kp = 1, ki = kd = 0, default curve. -/
def pidCfgUnit : PIDConfig :=
  ⟨60, 80, 1, 0, 0, defaultFanSpeeds, defaultRpms, defaultSlopes, defaultIntercepts⟩

/-- Concrete controller configuration with kp = 1/3 (produces a non-integer
output), desired 60, max 80, default curve. -/
def pidCfgThird : PIDConfig :=
  ⟨60, 80, 1/3, 0, 0, defaultFanSpeeds, defaultRpms, defaultSlopes, defaultIntercepts⟩

/-- Concrete loop configuration for worked examples: max_temp 80, hysteresis 5,
step_delay 2 seconds (the source defaults). -/
def loopCfgDefault : LoopConfig := ⟨80, 5, 2⟩

/-! Helper lemmas about indexing, the slope and intercept tables, and the
interpolation loop. -/

lemma strictIncrOn_getI_lt {rs : List ℤ} (hinc : strictIncrOn rs) {i j : ℕ}
    (hij : i < j) (hj : j < rs.length) : rs.getI i < rs.getI j :=
  hinc j hj i hij

lemma strictIncrOn_getI_le {rs : List ℤ} (hinc : strictIncrOn rs) {i j : ℕ}
    (hij : i ≤ j) (hj : j < rs.length) : rs.getI i ≤ rs.getI j := by
  rcases Nat.lt_or_ge i j with h | h
  · exact le_of_lt (strictIncrOn_getI_lt hinc h hj)
  · have : i = j := by omega
    simp [this]

lemma monoNondecOn_getI {fs : List ℤ} (hmono : monoNondecOn fs) {i j : ℕ}
    (hij : i ≤ j) (hj : j < fs.length) : fs.getI i ≤ fs.getI j :=
  hmono j hj i hij

lemma getI_mem {rs : List ℤ} {j : ℕ} (hj : j < rs.length) : rs.getI j ∈ rs := by
  rw [List.getI_eq_getElem _ hj]
  exact List.getElem_mem hj

lemma exists_getI_of_mem {rs : List ℤ} {a : ℤ} (h : a ∈ rs) :
    ∃ j, j < rs.length ∧ rs.getI j = a := by
  obtain ⟨i, hi, hv⟩ := List.mem_iff_getElem.1 h
  exact ⟨i, hi, by rw [List.getI_eq_getElem _ hi, hv]⟩

lemma indexOf_getI {rs : List ℤ} (hinc : strictIncrOn rs) {j : ℕ}
    (hj : j < rs.length) : rs.indexOf (rs.getI j) = j := by
  have hmem : rs.getI j ∈ rs := getI_mem hj
  have hlt : rs.indexOf (rs.getI j) < rs.length := List.indexOf_lt_length.2 hmem
  have hval : rs.getI (rs.indexOf (rs.getI j)) = rs.getI j := by
    rw [List.getI_eq_getElem _ hlt]
    exact List.getElem_indexOf hlt
  by_contra hne
  rcases Nat.lt_or_ge (rs.indexOf (rs.getI j)) j with h | h
  · exact absurd hval (ne_of_lt (strictIncrOn_getI_lt hinc h hj))
  · have hgt : j < rs.indexOf (rs.getI j) := by omega
    exact absurd hval.symm (ne_of_lt (strictIncrOn_getI_lt hinc hgt hlt))

lemma gsi_fst_getI {fs rs : List ℤ} (hfs : fs ≠ []) (hrs : rs ≠ [])
    (hlen : fs.length = rs.length) {j : ℕ} (hj : j < fs.length - 1) :
    (get_slopes_and_intercepts fs rs).1.getI j = slopeAt fs rs (j + 1) := by
  unfold get_slopes_and_intercepts
  rw [if_neg (by simp [hfs, hrs, hlen])]
  have hjl : j < ((List.range' 1 (fs.length - 1)).map (slopeAt fs rs)).length := by
    simpa using hj
  rw [List.getI_eq_getElem _ hjl, List.getElem_map, List.getElem_range'_1, Nat.add_comm]

lemma gsi_snd_getI {fs rs : List ℤ} (hfs : fs ≠ []) (hrs : rs ≠ [])
    (hlen : fs.length = rs.length) {j : ℕ} (hj : j < fs.length - 1) :
    (get_slopes_and_intercepts fs rs).2.getI j = interceptAt fs rs (j + 1) := by
  unfold get_slopes_and_intercepts
  rw [if_neg (by simp [hfs, hrs, hlen])]
  have hjl : j < ((List.range' 1 (fs.length - 1)).map (interceptAt fs rs)).length := by
    simpa using hj
  rw [List.getI_eq_getElem _ hjl, List.getElem_map, List.getElem_range'_1, Nat.add_comm]

lemma interp_from_spec (rpm : ℤ) (ss cs : List ℚ) (rs : List ℤ) :
    ∀ n i k, k - i = n → i ≤ k → k < rs.length →
      (∀ j, i ≤ j → j < k → rs.getI j ≤ rpm) → rpm < rs.getI k →
      interp_from rpm ss cs (rs.drop i) i =
        ss.getI (k - 1) * (rpm : ℚ) + cs.getI (k - 1) := by
  intro n
  induction n with
  | zero =>
    intro i k hn hik hk hj hlt
    have hik' : i = k := by omega
    subst hik'
    rw [List.drop_eq_getElem_cons hk]
    simp only [interp_from]
    rw [if_pos (by rw [← List.getI_eq_getElem _ hk]; exact hlt)]
  | succ m ih =>
    intro i k hn hik hk hj hlt
    have hik' : i < k := by omega
    have hi : i < rs.length := lt_trans hik' hk
    rw [List.drop_eq_getElem_cons hi]
    simp only [interp_from]
    rw [if_neg (by rw [← List.getI_eq_getElem _ hi]; exact not_lt.2 (hj i le_rfl hik'))]
    exact ih (i + 1) k (by omega) (by omega) hk (fun j h1 h2 => hj j (by omega) h2) hlt

lemma length_ne_nil {l : List ℤ} {j : ℕ} (hj : j < l.length) : l ≠ [] := by
  intro h
  rw [h] at hj
  simp at hj

lemma f_at_point {fs rs : List ℤ} (hlen : fs.length = rs.length)
    (hinc : strictIncrOn rs) {j : ℕ} (hj : j < rs.length) (ss cs : List ℚ) :
    get_fan_speed_percent (some (rs.getI j)) fs rs ss cs = (fs.getI j : ℚ) := by
  have hrs : rs ≠ [] := length_ne_nil hj
  have hfs : fs ≠ [] := length_ne_nil (by omega : 0 < fs.length)
  simp only [get_fan_speed_percent]
  rw [if_neg (by simp [hrs, hfs])]
  rw [if_neg (not_lt.2 (strictIncrOn_getI_le hinc (Nat.zero_le j) hj))]
  rw [if_neg (not_lt.2 (strictIncrOn_getI_le hinc (by omega) (by omega)))]
  rw [if_pos (getI_mem hj), indexOf_getI hinc hj]

lemma f_clamp_low {fs rs : List ℤ} (hlen : fs.length = rs.length) (hrs : rs ≠ [])
    (hinc : strictIncrOn rs) {rpm : ℤ} (h : rpm ≤ rs.getI 0) (ss cs : List ℚ) :
    get_fan_speed_percent (some rpm) fs rs ss cs = (fs.getI 0 : ℚ) := by
  have h0 : 0 < rs.length := List.length_pos.2 hrs
  have hfs : fs ≠ [] := length_ne_nil (by omega : 0 < fs.length)
  rcases lt_or_eq_of_le h with hlt | heq
  · simp only [get_fan_speed_percent]
    rw [if_neg (by simp [hrs, hfs])]
    rw [if_pos hlt]
  · rw [heq]
    exact f_at_point hlen hinc h0 ss cs

lemma f_clamp_high {fs rs : List ℤ} (hlen : fs.length = rs.length) (hrs : rs ≠ [])
    (hinc : strictIncrOn rs) {rpm : ℤ} (h : rs.getI (rs.length - 1) ≤ rpm)
    (ss cs : List ℚ) :
    get_fan_speed_percent (some rpm) fs rs ss cs = (fs.getI (fs.length - 1) : ℚ) := by
  have h0 : 0 < rs.length := List.length_pos.2 hrs
  have hfs : fs ≠ [] := length_ne_nil (by omega : 0 < fs.length)
  rcases lt_or_eq_of_le h with hlt | heq
  · simp only [get_fan_speed_percent]
    rw [if_neg (by simp [hrs, hfs])]
    rw [if_neg (not_lt.2 (le_of_lt (lt_of_le_of_lt
      (strictIncrOn_getI_le hinc (Nat.zero_le _) (by omega)) hlt)))]
    rw [if_pos hlt]
  · rw [← heq, f_at_point hlen hinc (by omega) ss cs, hlen]

lemma not_mem_of_between {rs : List ℤ} (hinc : strictIncrOn rs) {i : ℕ}
    (h1 : 1 ≤ i) (hi : i < rs.length) {rpm : ℤ} (hlo : rs.getI (i - 1) < rpm)
    (hhi : rpm < rs.getI i) : rpm ∉ rs := by
  intro hm
  obtain ⟨j, hj, hv⟩ := exists_getI_of_mem hm
  rcases Nat.lt_or_ge j i with hji | hji
  · have : rs.getI j ≤ rs.getI (i - 1) := strictIncrOn_getI_le hinc (by omega) (by omega)
    omega
  · have : rs.getI i ≤ rs.getI j := strictIncrOn_getI_le hinc hji hj
    omega

lemma f_between {fs rs : List ℤ} (hlen : fs.length = rs.length)
    (hinc : strictIncrOn rs) {i : ℕ} (h1 : 1 ≤ i) (hi : i < rs.length) {rpm : ℤ}
    (hlo : rs.getI (i - 1) < rpm) (hhi : rpm < rs.getI i) :
    get_fan_speed_percent (some rpm) fs rs (get_slopes_and_intercepts fs rs).1
        (get_slopes_and_intercepts fs rs).2 =
      slopeAt fs rs i * (rpm : ℚ) + interceptAt fs rs i := by
  have hrs : rs ≠ [] := length_ne_nil hi
  have hfs : fs ≠ [] := length_ne_nil (by omega : 0 < fs.length)
  simp only [get_fan_speed_percent]
  rw [if_neg (by simp [hrs, hfs])]
  rw [if_neg (not_lt.2 (le_of_lt (lt_of_le_of_lt
    (strictIncrOn_getI_le hinc (Nat.zero_le _) (by omega)) hlo)))]
  rw [if_neg (not_lt.2 (le_of_lt (lt_of_lt_of_le hhi
    (strictIncrOn_getI_le hinc (by omega) (by omega)))))]
  rw [if_neg (not_mem_of_between hinc h1 hi hlo hhi)]
  rw [interp_from_spec rpm _ _ rs (i - 1) 1 i (by omega) h1 hi
    (fun j hj1 hj2 => le_of_lt (lt_of_le_of_lt
      (strictIncrOn_getI_le hinc (by omega) (by omega)) hlo)) hhi]
  rw [gsi_fst_getI hfs hrs hlen (by omega), gsi_snd_getI hfs hrs hlen (by omega)]
  have : i - 1 + 1 = i := by omega
  rw [this]

lemma slope_intercept_left (fs rs : List ℤ) (i : ℕ) :
    slopeAt fs rs i * (rs.getI (i - 1) : ℚ) + interceptAt fs rs i =
      (fs.getI (i - 1) : ℚ) := by
  unfold interceptAt
  ring

lemma seg_value_eq (fs rs : List ℤ) (i : ℕ) (q : ℚ) :
    slopeAt fs rs i * q + interceptAt fs rs i =
      (fs.getI (i - 1) : ℚ) + slopeAt fs rs i * (q - (rs.getI (i - 1) : ℚ)) := by
  unfold interceptAt
  ring

lemma seg_bounds {fs rs : List ℤ} {i : ℕ}
    (hx : (rs.getI (i - 1) : ℚ) < (rs.getI i : ℚ))
    (hy : (fs.getI (i - 1) : ℚ) ≤ (fs.getI i : ℚ))
    {q : ℚ} (hq1 : (rs.getI (i - 1) : ℚ) ≤ q) (hq2 : q ≤ (rs.getI i : ℚ)) :
    (fs.getI (i - 1) : ℚ) ≤ slopeAt fs rs i * q + interceptAt fs rs i ∧
      slopeAt fs rs i * q + interceptAt fs rs i ≤ (fs.getI i : ℚ) := by
  have hden : (0 : ℚ) < (rs.getI i : ℚ) - (rs.getI (i - 1) : ℚ) := by linarith
  have hs : 0 ≤ slopeAt fs rs i := div_nonneg (by linarith) hden.le
  have hkey : slopeAt fs rs i * ((rs.getI i : ℚ) - (rs.getI (i - 1) : ℚ)) =
      (fs.getI i : ℚ) - (fs.getI (i - 1) : ℚ) := by
    unfold slopeAt
    field_simp
  constructor
  · rw [seg_value_eq]
    nlinarith [mul_nonneg hs (by linarith : (0 : ℚ) ≤ q - (rs.getI (i - 1) : ℚ))]
  · rw [seg_value_eq]
    nlinarith [mul_nonneg hs (by linarith : (0 : ℚ) ≤ (rs.getI i : ℚ) - q)]

lemma seg_mono {fs rs : List ℤ} {i : ℕ}
    (hx : (rs.getI (i - 1) : ℚ) < (rs.getI i : ℚ))
    (hy : (fs.getI (i - 1) : ℚ) ≤ (fs.getI i : ℚ))
    {q1 q2 : ℚ} (h : q1 ≤ q2) :
    slopeAt fs rs i * q1 + interceptAt fs rs i ≤
      slopeAt fs rs i * q2 + interceptAt fs rs i := by
  have hs : 0 ≤ slopeAt fs rs i := div_nonneg (by linarith) (by linarith)
  nlinarith [mul_le_mul_of_nonneg_left h hs]

lemma exists_bracket {rs : List ℤ} (_hinc : strictIncrOn rs) {rpm : ℤ}
    (h0 : rs.getI 0 ≤ rpm) (hlast : rpm < rs.getI (rs.length - 1)) :
    ∃ i, 1 ≤ i ∧ i < rs.length ∧ rs.getI (i - 1) ≤ rpm ∧ rpm < rs.getI i := by
  have hn : 1 < rs.length := by
    by_contra hle
    push_neg at hle
    have hz : rs.length - 1 = 0 := by omega
    rw [hz] at hlast
    omega
  have hP : ∃ i, i < rs.length ∧ rpm < rs.getI i := ⟨rs.length - 1, by omega, hlast⟩
  have hi0 := Nat.find_spec hP
  have h1 : 1 ≤ Nat.find hP := by
    by_contra h
    have hz : Nat.find hP = 0 := by omega
    rw [hz] at hi0
    omega
  have hprev : rs.getI (Nat.find hP - 1) ≤ rpm := by
    have hmin := Nat.find_min hP (show Nat.find hP - 1 < Nat.find hP by omega)
    push_neg at hmin
    exact hmin (by omega)
  exact ⟨Nat.find hP, h1, hi0.1, hprev, hi0.2⟩

lemma f_on_segment {fs rs : List ℤ} (hlen : fs.length = rs.length)
    (hinc : strictIncrOn rs) {i : ℕ} (h1 : 1 ≤ i) (hi : i < rs.length) {rpm : ℤ}
    (hlo : rs.getI (i - 1) ≤ rpm) (hhi : rpm < rs.getI i) :
    get_fan_speed_percent (some rpm) fs rs (get_slopes_and_intercepts fs rs).1
        (get_slopes_and_intercepts fs rs).2 =
      slopeAt fs rs i * (rpm : ℚ) + interceptAt fs rs i := by
  rcases lt_or_eq_of_le hlo with h | h
  · exact f_between hlen hinc h1 hi h hhi
  · rw [← h, f_at_point hlen hinc (by omega)]
    have := slope_intercept_left fs rs i
    exact this.symm

lemma f_bounds {fs rs : List ℤ} (hlen : fs.length = rs.length) (hrs : rs ≠ [])
    (hinc : strictIncrOn rs) (hmono : monoNondecOn fs) (rpm : ℤ) :
    (fs.getI 0 : ℚ) ≤ get_fan_speed_percent (some rpm) fs rs
        (get_slopes_and_intercepts fs rs).1 (get_slopes_and_intercepts fs rs).2 ∧
      get_fan_speed_percent (some rpm) fs rs (get_slopes_and_intercepts fs rs).1
          (get_slopes_and_intercepts fs rs).2 ≤ (fs.getI (fs.length - 1) : ℚ) := by
  have h0 : 0 < rs.length := List.length_pos.2 hrs
  have hfs0 : (fs.getI 0 : ℚ) ≤ (fs.getI (fs.length - 1) : ℚ) := by
    exact_mod_cast monoNondecOn_getI hmono (by omega) (by omega)
  rcases le_or_lt rpm (rs.getI 0) with hc | hc
  · rw [f_clamp_low hlen hrs hinc hc]
    exact ⟨le_refl _, hfs0⟩
  rcases le_or_lt (rs.getI (rs.length - 1)) rpm with hc2 | hc2
  · rw [f_clamp_high hlen hrs hinc hc2]
    exact ⟨hfs0, le_refl _⟩
  obtain ⟨i, h1, hi, hlo, hhi⟩ := exists_bracket hinc (le_of_lt hc) hc2
  rw [f_on_segment hlen hinc h1 hi hlo hhi]
  have hx : (rs.getI (i - 1) : ℚ) < (rs.getI i : ℚ) := by
    exact_mod_cast strictIncrOn_getI_lt hinc (by omega) hi
  have hy : (fs.getI (i - 1) : ℚ) ≤ (fs.getI i : ℚ) := by
    exact_mod_cast monoNondecOn_getI hmono (by omega) (by omega)
  have hq1 : (rs.getI (i - 1) : ℚ) ≤ (rpm : ℚ) := by exact_mod_cast hlo
  have hq2 : (rpm : ℚ) ≤ (rs.getI i : ℚ) := by exact_mod_cast le_of_lt hhi
  obtain ⟨ha, hb⟩ := seg_bounds hx hy hq1 hq2
  constructor
  · exact le_trans (by exact_mod_cast monoNondecOn_getI hmono (Nat.zero_le _) (by omega)) ha
  · exact le_trans hb (by exact_mod_cast monoNondecOn_getI hmono (by omega) (by omega))

lemma f_mono {fs rs : List ℤ} (hlen : fs.length = rs.length)
    (hinc : strictIncrOn rs) (hmono : monoNondecOn fs) {rpm1 rpm2 : ℤ}
    (h12 : rpm1 ≤ rpm2) :
    get_fan_speed_percent (some rpm1) fs rs (get_slopes_and_intercepts fs rs).1
        (get_slopes_and_intercepts fs rs).2 ≤
      get_fan_speed_percent (some rpm2) fs rs (get_slopes_and_intercepts fs rs).1
        (get_slopes_and_intercepts fs rs).2 := by
  rcases eq_or_ne rs [] with hrs | hrs
  · simp [get_fan_speed_percent, hrs]
  have h0 : 0 < rs.length := List.length_pos.2 hrs
  rcases le_or_lt rpm1 (rs.getI 0) with hc1 | hc1
  · rw [f_clamp_low hlen hrs hinc hc1]
    exact (f_bounds hlen hrs hinc hmono rpm2).1
  rcases le_or_lt (rs.getI (rs.length - 1)) rpm2 with hc2 | hc2
  · rw [f_clamp_high hlen hrs hinc hc2]
    exact (f_bounds hlen hrs hinc hmono rpm1).2
  obtain ⟨i1, h11, h1i, h1lo, h1hi⟩ :=
    exists_bracket hinc (le_of_lt hc1) (lt_of_le_of_lt h12 hc2)
  obtain ⟨i2, h21, h2i, h2lo, h2hi⟩ :=
    exists_bracket hinc (le_of_lt (lt_of_lt_of_le hc1 h12)) hc2
  rw [f_on_segment hlen hinc h11 h1i h1lo h1hi,
    f_on_segment hlen hinc h21 h2i h2lo h2hi]
  have hx1 : (rs.getI (i1 - 1) : ℚ) < (rs.getI i1 : ℚ) := by
    exact_mod_cast strictIncrOn_getI_lt hinc (by omega) h1i
  have hy1 : (fs.getI (i1 - 1) : ℚ) ≤ (fs.getI i1 : ℚ) := by
    exact_mod_cast monoNondecOn_getI hmono (by omega) (by omega)
  have hx2 : (rs.getI (i2 - 1) : ℚ) < (rs.getI i2 : ℚ) := by
    exact_mod_cast strictIncrOn_getI_lt hinc (by omega) h2i
  have hy2 : (fs.getI (i2 - 1) : ℚ) ≤ (fs.getI i2 : ℚ) := by
    exact_mod_cast monoNondecOn_getI hmono (by omega) (by omega)
  have hi12 : i1 ≤ i2 := by
    by_contra hgt
    push_neg at hgt
    have : rs.getI i2 ≤ rs.getI (i1 - 1) := strictIncrOn_getI_le hinc (by omega) (by omega)
    omega
  rcases eq_or_lt_of_le hi12 with heq | hlt
  · subst heq
    exact seg_mono hx1 hy1 (by exact_mod_cast h12)
  · have hq11 : (rs.getI (i1 - 1) : ℚ) ≤ (rpm1 : ℚ) := by exact_mod_cast h1lo
    have hq12 : (rpm1 : ℚ) ≤ (rs.getI i1 : ℚ) := by exact_mod_cast le_of_lt h1hi
    have hq21 : (rs.getI (i2 - 1) : ℚ) ≤ (rpm2 : ℚ) := by exact_mod_cast h2lo
    have hq22 : (rpm2 : ℚ) ≤ (rs.getI i2 : ℚ) := by exact_mod_cast le_of_lt h2hi
    have upper1 := (seg_bounds hx1 hy1 hq11 hq12).2
    have lower2 := (seg_bounds hx2 hy2 hq21 hq22).1
    have hmid : (fs.getI i1 : ℚ) ≤ (fs.getI (i2 - 1) : ℚ) := by
      exact_mod_cast monoNondecOn_getI hmono (by omega) (by omega)
    linarith

lemma step_out_cases {cfg : PIDConfig} {st : PIDState} {t : ℚ} {temp : ℤ}
    {dok : Bool} {rp : Option ℤ} {v : ℚ} {st' : PIDState}
    (hstep : PID.step cfg st t temp dok rp = .output v st') :
    (PID.unclampedOutput cfg st t temp rp < cfg.min_fan_speed ∧
      v = cfg.min_fan_speed ∧ st' = ⟨t, 0, 0⟩) ∨
    (¬PID.unclampedOutput cfg st t temp rp < cfg.min_fan_speed ∧
      cfg.max_fan_speed < PID.unclampedOutput cfg st t temp rp ∧
      v = cfg.max_fan_speed ∧ st' = ⟨t, 0, 0⟩) ∨
    (¬PID.unclampedOutput cfg st t temp rp < cfg.min_fan_speed ∧
      ¬cfg.max_fan_speed < PID.unclampedOutput cfg st t temp rp ∧
      v = PID.unclampedOutput cfg st t temp rp ∧
      st' = ⟨t, PID.integral cfg st t temp, ((temp - cfg.desired_temp : ℤ) : ℚ)⟩) := by
  unfold PID.step at hstep
  by_cases h0 : cfg.max_temp < temp ∧ dok = false
  · rw [if_pos h0] at hstep
    exact absurd hstep (by simp)
  rw [if_neg h0] at hstep
  by_cases h1 : PID.unclampedOutput cfg st t temp rp < cfg.min_fan_speed
  · rw [if_pos h1] at hstep
    injection hstep with hv hs
    exact Or.inl ⟨h1, hv.symm, hs.symm⟩
  rw [if_neg h1] at hstep
  by_cases h2 : cfg.max_fan_speed < PID.unclampedOutput cfg st t temp rp
  · rw [if_pos h2] at hstep
    injection hstep with hv hs
    exact Or.inr (Or.inl ⟨h1, h2, hv.symm, hs.symm⟩)
  · rw [if_neg h2] at hstep
    injection hstep with hv hs
    exact Or.inr (Or.inr ⟨h1, h2, hv.symm, hs.symm⟩)

lemma tickPidSection_next (cfg : LoopConfig) (s : LoopState) (inp : TickInput) :
    tickPidSection cfg s inp = .next cfg.step_delay s ∨
      tickPidSection cfg s inp = .next (max 0 (cfg.step_delay - inp.elapsed)) s := by
  unfold tickPidSection
  by_cases hm : s.manual_mode
  · rw [if_pos hm]
    cases hrpm : inp.rpm with
    | none => exact Or.inl rfl
    | some r =>
      cases hps : inp.pid_speed with
      | none => exact Or.inl rfl
      | some v =>
        by_cases hv : v < 0
        · exact Or.inl (by simp [hv])
        · exact Or.inr (by simp [hv])
  · rw [if_neg hm]
    exact Or.inr rfl

lemma tickPidSection_vendor (cfg : LoopConfig) (s : LoopState) (inp : TickInput)
    (hm : s.manual_mode = false) :
    tickPidSection cfg s inp = .next (max 0 (cfg.step_delay - inp.elapsed)) s := by
  unfold tickPidSection
  rw [if_neg (by simp [hm])]

lemma tick_none_eq (cfg : LoopConfig) (st : LoopState) (inp : TickInput)
    (hT : inp.curr_temp = none) :
    tick cfg st inp =
      if 10 ≤ st.consecutive_errors + 1 then .exited
      else .next cfg.step_delay ⟨st.manual_mode, st.consecutive_errors + 1⟩ := by
  obtain ⟨tmp, dok, mok, rpmI, psI, wok, el⟩ := inp
  simp only at hT
  subst hT
  rfl

lemma tick_some_full (cfg : LoopConfig) (st : LoopState) (inp : TickInput) (T : ℤ)
    (hT : inp.curr_temp = some T) :
    ∃ d m, tick cfg st inp = .next d ⟨m, 0⟩ ∧
      (st.manual_mode = true →
        (m = false ↔ cfg.max_temp < T ∧ inp.dell_ok = true)) ∧
      (st.manual_mode = false →
        (m = true ↔ T ≤ cfg.max_temp - cfg.hysteresis ∧ inp.manual_ok = true)) := by
  obtain ⟨tmp, dok, mok, rpmI, psI, wok, el⟩ := inp
  simp only at hT
  subst hT
  obtain ⟨m0, c0⟩ := st
  simp only [tick]
  cases m0 with
  | true =>
    by_cases hc1 : cfg.max_temp < T
    · rw [if_pos (by simp [hc1])]
      cases dok with
      | true =>
        rcases tickPidSection_next cfg ⟨false, 0⟩ ⟨some T, true, mok, rpmI, psI, wok, el⟩
          with hd | hd
        · exact ⟨_, false, by rw [if_pos rfl, hd], by simp [hc1], by simp⟩
        · exact ⟨_, false, by rw [if_pos rfl, hd], by simp [hc1], by simp⟩
      | false =>
        refine ⟨cfg.step_delay, true, ?_, by simp, by simp⟩
        rw [if_neg (by simp)]
    · rw [if_neg (by simp [hc1])]
      rw [if_neg (by simp)]
      rcases tickPidSection_next cfg ⟨true, 0⟩ ⟨some T, dok, mok, rpmI, psI, wok, el⟩
        with hd | hd
      · exact ⟨_, true, hd, by simp [hc1], by simp⟩
      · exact ⟨_, true, hd, by simp [hc1], by simp⟩
  | false =>
    rw [if_neg (by simp)]
    by_cases hc2 : T ≤ cfg.max_temp - cfg.hysteresis
    · rw [if_pos (by simp [hc2])]
      cases mok with
      | true =>
        rcases tickPidSection_next cfg ⟨true, 0⟩ ⟨some T, dok, true, rpmI, psI, wok, el⟩
          with hd | hd
        · exact ⟨_, true, by rw [if_pos rfl, hd], by simp, by simp [hc2]⟩
        · exact ⟨_, true, by rw [if_pos rfl, hd], by simp, by simp [hc2]⟩
      | false =>
        refine ⟨cfg.step_delay, false, ?_, by simp, by simp⟩
        rw [if_neg (by simp)]
    · rw [if_neg (by simp [hc2])]
      rcases tickPidSection_next cfg ⟨false, 0⟩ ⟨some T, dok, mok, rpmI, psI, wok, el⟩
        with hd | hd
      · exact ⟨_, false, hd, by simp, by simp [hc2]⟩
      · exact ⟨_, false, hd, by simp, by simp [hc2]⟩

lemma runTicks_append (cfg : LoopConfig) (a b : List TickInput) :
    ∀ st, runTicks cfg st (a ++ b) =
      match runTicks cfg st a with
      | none => none
      | some st' => runTicks cfg st' b := by
  induction a with
  | nil => intro st; rfl
  | cons x xs ih =>
    intro st
    simp only [List.cons_append, runTicks]
    cases tick cfg st x with
    | exited => rfl
    | next d st' => exact ih st'

lemma runTicks_failures (cfg : LoopConfig) (failInp : TickInput)
    (hf : failInp.curr_temp = none) :
    ∀ n st, st.consecutive_errors + n < 10 →
      runTicks cfg st (List.replicate n failInp) =
        some ⟨st.manual_mode, st.consecutive_errors + n⟩ := by
  intro n
  induction n with
  | zero =>
    intro st h
    simp [runTicks]
  | succ m ih =>
    intro st h
    rw [List.replicate_succ]
    simp only [runTicks]
    rw [tick_none_eq cfg st failInp hf, if_neg (by omega)]
    show runTicks cfg ⟨st.manual_mode, st.consecutive_errors + 1⟩ (List.replicate m failInp) = _
    rw [ih ⟨st.manual_mode, st.consecutive_errors + 1⟩ (by simp; omega)]
    have harith : st.consecutive_errors + 1 + m = st.consecutive_errors + (m + 1) := by omega
    simp [harith]

/-! Claim theorems. -/

/-- Claim C4: for an rpm strictly between two adjacent calibration rpms,
rpm-to-percent interpolation returns slope[i-1] * rpm + intercept[i-1] for the
bracketing segment, with the slope and intercept given by the adjacent-point
formulas of get_slopes_and_intercepts; in particular, on the default curve,
2040 maps to exactly 30 and 2200 maps to 30 + (2200-2040)/(2640-2040)*(40-30).
(The segment built in loop iteration i of get_slopes_and_intercepts sits at
list position i-1, so slopeAt fs rs i is the stored slopes[i-1].) -/
theorem interp_bracketing_segment_formula :
    (∀ fs rs : List ℤ, fs.length = rs.length → strictIncrOn rs →
      ∀ i, 1 ≤ i → i < rs.length → ∀ rpm : ℤ,
        rs.getI (i - 1) < rpm → rpm < rs.getI i →
        get_fan_speed_percent (some rpm) fs rs (get_slopes_and_intercepts fs rs).1
            (get_slopes_and_intercepts fs rs).2 =
          slopeAt fs rs i * (rpm : ℚ) + interceptAt fs rs i ∧
        slopeAt fs rs i = ((fs.getI i : ℚ) - (fs.getI (i - 1) : ℚ)) /
            ((rs.getI i : ℚ) - (rs.getI (i - 1) : ℚ)) ∧
        interceptAt fs rs i =
          (fs.getI (i - 1) : ℚ) - slopeAt fs rs i * (rs.getI (i - 1) : ℚ)) ∧
    get_fan_speed_percent (some 2040) defaultFanSpeeds defaultRpms defaultSlopes
        defaultIntercepts = 30 ∧
    get_fan_speed_percent (some 2200) defaultFanSpeeds defaultRpms defaultSlopes
        defaultIntercepts = 30 + (2200 - 2040) / (2640 - 2040) * (40 - 30) := by
  refine ⟨?_, ?_, ?_⟩
  · intro fs rs hlen hinc i h1 hi rpm hlo hhi
    exact ⟨f_between hlen hinc h1 hi hlo hhi, rfl, rfl⟩
  · norm_num [get_fan_speed_percent, defaultFanSpeeds, defaultRpms, defaultSlopes,
      defaultIntercepts, get_slopes_and_intercepts, slopeAt, interceptAt, interp_from,
      List.range', List.cons_ne_nil, List.getI_cons_zero, List.getI_cons_succ]
  · norm_num [get_fan_speed_percent, defaultFanSpeeds, defaultRpms, defaultSlopes,
      defaultIntercepts, get_slopes_and_intercepts, slopeAt, interceptAt, interp_from,
      List.range', List.cons_ne_nil, List.getI_cons_zero, List.getI_cons_succ]

/-- Witness for C4: the quantified part applied to the default curve with
bracketing segment i = 2 and rpm = 2200. -/
theorem interp_bracketing_segment_formula_witness :
    get_fan_speed_percent (some 2200) defaultFanSpeeds defaultRpms
        (get_slopes_and_intercepts defaultFanSpeeds defaultRpms).1
        (get_slopes_and_intercepts defaultFanSpeeds defaultRpms).2 =
      slopeAt defaultFanSpeeds defaultRpms 2 * (2200 : ℚ) +
        interceptAt defaultFanSpeeds defaultRpms 2 ∧
    slopeAt defaultFanSpeeds defaultRpms 2 =
      ((defaultFanSpeeds.getI 2 : ℚ) - (defaultFanSpeeds.getI 1 : ℚ)) /
        ((defaultRpms.getI 2 : ℚ) - (defaultRpms.getI 1 : ℚ)) ∧
    interceptAt defaultFanSpeeds defaultRpms 2 =
      (defaultFanSpeeds.getI 1 : ℚ) -
        slopeAt defaultFanSpeeds defaultRpms 2 * (defaultRpms.getI 1 : ℚ) :=
  interp_bracketing_segment_formula.1 defaultFanSpeeds defaultRpms rfl (by decide)
    2 (by decide) (by decide) 2200 (by decide) (by decide)

/-- Claim C5: at every calibration point the interpolation returns that
point's exact percentage; the slope and intercept tables are quantified over
arbitrarily, so no interpolation arithmetic can be involved in the result. -/
theorem calibration_point_exact (fs rs : List ℤ) (hlen : fs.length = rs.length)
    (hinc : strictIncrOn rs) (j : ℕ) (hj : j < rs.length) (ss cs : List ℚ) :
    get_fan_speed_percent (some (rs.getI j)) fs rs ss cs = (fs.getI j : ℚ) :=
  f_at_point hlen hinc hj ss cs

/-- Witness for C5: the default curve at calibration index 1 (rpm 2040). -/
theorem calibration_point_exact_witness :
    get_fan_speed_percent (some (defaultRpms.getI 1)) defaultFanSpeeds defaultRpms
      defaultSlopes defaultIntercepts = (defaultFanSpeeds.getI 1 : ℚ) :=
  calibration_point_exact defaultFanSpeeds defaultRpms rfl (by decide) 1 (by decide)
    defaultSlopes defaultIntercepts

/-- Claim C6: below the first calibration rpm the interpolation returns the
first percentage and above the last it returns the last percentage, boundary
points included; the slope and intercept tables are irrelevant on these
paths. -/
theorem clamp_outside_calibration (fs rs : List ℤ) (hlen : fs.length = rs.length)
    (hrs : rs ≠ []) (hinc : strictIncrOn rs) (rpm : ℤ) (ss cs : List ℚ) :
    (rpm ≤ rs.getI 0 →
      get_fan_speed_percent (some rpm) fs rs ss cs = (fs.getI 0 : ℚ)) ∧
    (rs.getI (rs.length - 1) ≤ rpm →
      get_fan_speed_percent (some rpm) fs rs ss cs = (fs.getI (fs.length - 1) : ℚ)) :=
  ⟨fun h => f_clamp_low hlen hrs hinc h ss cs,
   fun h => f_clamp_high hlen hrs hinc h ss cs⟩

/-- Witness for C6: the default curve clamps rpm 1000 to the first percentage
and rpm 9000 to the last. -/
theorem clamp_outside_calibration_witness :
    get_fan_speed_percent (some 1000) defaultFanSpeeds defaultRpms defaultSlopes
        defaultIntercepts = (defaultFanSpeeds.getI 0 : ℚ) ∧
    get_fan_speed_percent (some 9000) defaultFanSpeeds defaultRpms defaultSlopes
        defaultIntercepts = (defaultFanSpeeds.getI (defaultFanSpeeds.length - 1) : ℚ) :=
  ⟨(clamp_outside_calibration defaultFanSpeeds defaultRpms rfl (by decide) (by decide)
      1000 defaultSlopes defaultIntercepts).1 (by decide),
   (clamp_outside_calibration defaultFanSpeeds defaultRpms rfl (by decide) (by decide)
      9000 defaultSlopes defaultIntercepts).2 (by decide)⟩

/-- Claim C7: with strictly increasing calibration rpms and monotone
non-decreasing calibration percentages, rpm-to-percent interpolation over the
tables built by get_slopes_and_intercepts is monotone non-decreasing in the
rpm argument. -/
theorem rpm_to_percent_monotone (fs rs : List ℤ) (hlen : fs.length = rs.length)
    (hinc : strictIncrOn rs) (hmono : monoNondecOn fs) (rpm1 rpm2 : ℤ)
    (h12 : rpm1 ≤ rpm2) :
    get_fan_speed_percent (some rpm1) fs rs (get_slopes_and_intercepts fs rs).1
        (get_slopes_and_intercepts fs rs).2 ≤
      get_fan_speed_percent (some rpm2) fs rs (get_slopes_and_intercepts fs rs).1
        (get_slopes_and_intercepts fs rs).2 :=
  f_mono hlen hinc hmono h12

/-- Witness for C7: on the default curve, rpm 2100 maps no higher than rpm
2600. -/
theorem rpm_to_percent_monotone_witness :
    get_fan_speed_percent (some 2100) defaultFanSpeeds defaultRpms
        (get_slopes_and_intercepts defaultFanSpeeds defaultRpms).1
        (get_slopes_and_intercepts defaultFanSpeeds defaultRpms).2 ≤
      get_fan_speed_percent (some 2600) defaultFanSpeeds defaultRpms
        (get_slopes_and_intercepts defaultFanSpeeds defaultRpms).1
        (get_slopes_and_intercepts defaultFanSpeeds defaultRpms).2 :=
  rpm_to_percent_monotone defaultFanSpeeds defaultRpms rfl (by decide) (by decide)
    2100 2600 (by decide)

/-- Claim C1: every pid.PID.step that produces an output clamps it to
[min_fan_speed, max_fan_speed]; when the unclamped output lies outside that
interval the stored integral_error and previous_error are both reset to 0, and
otherwise previous_error stores this tick's error curr_temp - desired_temp. -/
theorem pid_step_clamped (cfg : PIDConfig) (st : PIDState) (t : ℚ) (temp : ℤ)
    (dok : Bool) (rp : Option ℤ)
    (hvalid : cfg.min_fan_speed ≤ cfg.max_fan_speed) (v : ℚ) (st' : PIDState)
    (hstep : PID.step cfg st t temp dok rp = .output v st') :
    (cfg.min_fan_speed ≤ v ∧ v ≤ cfg.max_fan_speed) ∧
    ((PID.unclampedOutput cfg st t temp rp < cfg.min_fan_speed ∨
        cfg.max_fan_speed < PID.unclampedOutput cfg st t temp rp) →
      st'.integral_error = 0 ∧ st'.previous_error = 0) ∧
    (cfg.min_fan_speed ≤ PID.unclampedOutput cfg st t temp rp →
      PID.unclampedOutput cfg st t temp rp ≤ cfg.max_fan_speed →
      st'.previous_error = ((temp - cfg.desired_temp : ℤ) : ℚ)) := by
  rcases step_out_cases hstep with ⟨h1, hv, hs⟩ | ⟨h1, h2, hv, hs⟩ | ⟨h1, h2, hv, hs⟩
  · subst hv
    subst hs
    exact ⟨⟨le_refl _, hvalid⟩, fun _ => ⟨rfl, rfl⟩,
      fun hlo _ => absurd h1 (not_lt.2 hlo)⟩
  · subst hv
    subst hs
    exact ⟨⟨hvalid, le_refl _⟩, fun _ => ⟨rfl, rfl⟩,
      fun _ hhi => absurd h2 (not_lt.2 hhi)⟩
  · subst hv
    subst hs
    refine ⟨⟨not_lt.1 h1, not_lt.1 h2⟩, ?_, fun _ _ => rfl⟩
    intro hcl
    rcases hcl with hc | hc
    · exact absurd hc h1
    · exact absurd hc h2

/-- Witness for C1: a concrete unclamped step (temperature 65, desired 60,
kp = 1, fan at the 2040 rpm calibration point) on the default curve. -/
theorem pid_step_clamped_witness :
    (pidCfgUnit.min_fan_speed ≤ 35 ∧ (35 : ℚ) ≤ pidCfgUnit.max_fan_speed) ∧
    ((PID.unclampedOutput pidCfgUnit ⟨0, 0, 0⟩ 100 65 (some 2040) <
        pidCfgUnit.min_fan_speed ∨
        pidCfgUnit.max_fan_speed <
          PID.unclampedOutput pidCfgUnit ⟨0, 0, 0⟩ 100 65 (some 2040)) →
      (⟨100, 0, 5⟩ : PIDState).integral_error = 0 ∧
        (⟨100, 0, 5⟩ : PIDState).previous_error = 0) ∧
    (pidCfgUnit.min_fan_speed ≤ PID.unclampedOutput pidCfgUnit ⟨0, 0, 0⟩ 100 65 (some 2040) →
      PID.unclampedOutput pidCfgUnit ⟨0, 0, 0⟩ 100 65 (some 2040) ≤
        pidCfgUnit.max_fan_speed →
      (⟨100, 0, 5⟩ : PIDState).previous_error = ((65 - pidCfgUnit.desired_temp : ℤ) : ℚ)) :=
  pid_step_clamped pidCfgUnit ⟨0, 0, 0⟩ 100 65 true (some 2040)
    (by norm_num [PIDConfig.min_fan_speed, PIDConfig.max_fan_speed, pidCfgUnit,
      defaultFanSpeeds])
    35 ⟨100, 0, 5⟩
    (by norm_num [PID.step, PID.unclampedOutput, PID.dt, PID.integral,
      get_fan_speed_percent, PIDConfig.min_fan_speed, PIDConfig.max_fan_speed, pidCfgUnit,
      defaultFanSpeeds, defaultRpms, List.cons_ne_nil])

/-- Claim C2: on a tick whose temperature read succeeded the loop never exits,
and the mode flips from direct (manual) to vendor control exactly when the
temperature exceeds max_temp and the vendor-control command succeeds, flips
from vendor to direct exactly when the temperature is at most
max_temp - hysteresis and the manual-control command succeeds, and stays put
in every other case, the dead band included. -/
theorem mode_state_machine_exact (cfg : LoopConfig) (st : LoopState)
    (inp : TickInput) (T : ℤ) (hT : inp.curr_temp = some T) :
    ∃ s st', tick cfg st inp = .next s st' ∧
      (st.manual_mode = true →
        (st'.manual_mode = false ↔ cfg.max_temp < T ∧ inp.dell_ok = true)) ∧
      (st.manual_mode = false →
        (st'.manual_mode = true ↔
          T ≤ cfg.max_temp - cfg.hysteresis ∧ inp.manual_ok = true)) := by
  obtain ⟨d, m, hd, h1, h2⟩ := tick_some_full cfg st inp T hT
  exact ⟨d, ⟨m, 0⟩, hd, h1, h2⟩

/-- Witness for C2: direct mode at temperature 85 with max_temp 80 and a
successful vendor-control command. -/
theorem mode_state_machine_exact_witness :
    ∃ s st', tick loopCfgDefault ⟨true, 0⟩
        ⟨some 85, true, true, some 2040, some 30, true, 1⟩ = .next s st' ∧
      ((true : Bool) = true →
        (st'.manual_mode = false ↔ loopCfgDefault.max_temp < 85 ∧ (true : Bool) = true)) ∧
      ((true : Bool) = false →
        (st'.manual_mode = true ↔
          (85 : ℤ) ≤ loopCfgDefault.max_temp - loopCfgDefault.hysteresis ∧
            (true : Bool) = true)) :=
  mode_state_machine_exact loopCfgDefault ⟨true, 0⟩
    ⟨some 85, true, true, some 2040, some 30, true, 1⟩ 85 rfl

/-- Claim C3: the loop exits exactly on a failed temperature read that brings
the consecutive-failure count to the ceiling of 10; a successful read resets
the counter to exactly 0, and from a fresh counter any n < 10 straight
failures followed by one success leave the loop running with counter 0. -/
theorem consecutive_failure_ceiling :
    (∀ (cfg : LoopConfig) (st : LoopState) (inp : TickInput),
      tick cfg st inp = .exited ↔
        inp.curr_temp = none ∧ 10 ≤ st.consecutive_errors + 1) ∧
    (∀ (cfg : LoopConfig) (st : LoopState) (inp : TickInput) (T : ℤ),
      inp.curr_temp = some T →
        ∃ s st', tick cfg st inp = .next s st' ∧ st'.consecutive_errors = 0) ∧
    (∀ (cfg : LoopConfig) (st : LoopState) (n : ℕ), n < 10 →
      st.consecutive_errors = 0 →
      ∀ (failInp okInp : TickInput) (T : ℤ), failInp.curr_temp = none →
        okInp.curr_temp = some T →
        ∃ st', runTicks cfg st (List.replicate n failInp ++ [okInp]) = some st' ∧
          st'.consecutive_errors = 0) := by
  refine ⟨?_, ?_, ?_⟩
  · intro cfg st inp
    constructor
    · intro hex
      cases htmp : inp.curr_temp with
      | none =>
        rw [tick_none_eq cfg st inp htmp] at hex
        by_cases hc : 10 ≤ st.consecutive_errors + 1
        · exact ⟨rfl, hc⟩
        · rw [if_neg hc] at hex
          exact absurd hex (by simp)
      | some T =>
        obtain ⟨d, m, hd, _, _⟩ := tick_some_full cfg st inp T htmp
        rw [hd] at hex
        exact absurd hex (by simp)
    · rintro ⟨htmp, hc⟩
      rw [tick_none_eq cfg st inp htmp, if_pos hc]
  · intro cfg st inp T hT
    obtain ⟨d, m, hd, _, _⟩ := tick_some_full cfg st inp T hT
    exact ⟨d, ⟨m, 0⟩, hd, rfl⟩
  · intro cfg st n hn h0 failInp okInp T hf hok
    rw [runTicks_append cfg (List.replicate n failInp) [okInp] st,
      runTicks_failures cfg failInp hf n st (by omega)]
    obtain ⟨d, m, hd, _, _⟩ :=
      tick_some_full cfg ⟨st.manual_mode, st.consecutive_errors + n⟩ okInp T hok
    show ∃ st', runTicks cfg ⟨st.manual_mode, st.consecutive_errors + n⟩ [okInp] =
      some st' ∧ st'.consecutive_errors = 0
    simp only [runTicks, hd]
    exact ⟨⟨m, 0⟩, rfl, rfl⟩

/-- Witness for C3: a tenth consecutive failure exits, and three failures
followed by a success leave the loop running with a zeroed counter. -/
theorem consecutive_failure_ceiling_witness :
    tick loopCfgDefault ⟨true, 9⟩ ⟨none, true, true, none, none, true, 1⟩ =
      .exited ∧
    (∃ st', runTicks loopCfgDefault ⟨true, 0⟩
        (List.replicate 3 ⟨none, true, true, none, none, true, 1⟩ ++
          [⟨some 70, true, true, some 2040, some 30, true, 1⟩]) = some st' ∧
      st'.consecutive_errors = 0) :=
  ⟨(consecutive_failure_ceiling.1 loopCfgDefault ⟨true, 9⟩
      ⟨none, true, true, none, none, true, 1⟩).2 ⟨rfl, by decide⟩,
   consecutive_failure_ceiling.2.2 loopCfgDefault ⟨true, 0⟩ 3 (by omega) rfl
     ⟨none, true, true, none, none, true, 1⟩
     ⟨some 70, true, true, some 2040, some 30, true, 1⟩ 70 rfl rfl⟩

lemma tick_next_sleep {cfg : LoopConfig} {st : LoopState} {inp : TickInput}
    {s : ℚ} {st' : LoopState} (h : tick cfg st inp = .next s st') :
    s = cfg.step_delay ∨ s = max 0 (cfg.step_delay - inp.elapsed) := by
  obtain ⟨tmp, dok, mok, rpmI, psI, wok, el⟩ := inp
  obtain ⟨m0, c0⟩ := st
  cases tmp with
  | none =>
    rw [tick_none_eq _ _ _ rfl] at h
    by_cases hc : 10 ≤ c0 + 1
    · rw [if_pos hc] at h
      exact absurd h (by simp)
    · rw [if_neg hc] at h
      injection h with h1 h2
      exact Or.inl h1.symm
  | some T =>
    simp only [tick] at h
    by_cases hc1 : cfg.max_temp < T ∧ ((⟨m0, 0⟩ : LoopState).manual_mode : Prop)
    · rw [if_pos hc1] at h
      cases dok with
      | true =>
        rw [if_pos rfl] at h
        rcases tickPidSection_next cfg ⟨false, 0⟩ ⟨some T, true, mok, rpmI, psI, wok, el⟩
          with hd | hd
        · rw [hd] at h
          injection h with h1 h2
          exact Or.inl h1.symm
        · rw [hd] at h
          injection h with h1 h2
          exact Or.inr h1.symm
      | false =>
        rw [if_neg (by simp)] at h
        injection h with h1 h2
        exact Or.inl h1.symm
    · rw [if_neg hc1] at h
      by_cases hc2 : (⟨m0, 0⟩ : LoopState).manual_mode = false ∧
          T ≤ cfg.max_temp - cfg.hysteresis
      · rw [if_pos hc2] at h
        cases mok with
        | true =>
          rw [if_pos rfl] at h
          rcases tickPidSection_next cfg ⟨true, 0⟩ ⟨some T, dok, true, rpmI, psI, wok, el⟩
            with hd | hd
          · rw [hd] at h
            injection h with h1 h2
            exact Or.inl h1.symm
          · rw [hd] at h
            injection h with h1 h2
            exact Or.inr h1.symm
        | false =>
          rw [if_neg (by simp)] at h
          injection h with h1 h2
          exact Or.inl h1.symm
      · rw [if_neg hc2] at h
        rcases tickPidSection_next cfg ⟨m0, 0⟩ ⟨some T, dok, mok, rpmI, psI, wok, el⟩
          with hd | hd
        · rw [hd] at h
          injection h with h1 h2
          exact Or.inl h1.symm
        · rw [hd] at h
          injection h with h1 h2
          exact Or.inr h1.symm

/-- Claim C8 (code bug evidence): pid.PID.step rounds its output to one
decimal place, not to an integer, before handing it to set_fan_speed_percent.
At desired 60, temperature 62, kp = 1/3 and fan at the 2040 rpm calibration
point the clamped output is 92/3 and round(output, 1) is 307/10, whose
denominator 10 shows the passed value is not an integer (an integer rational
has denominator 1), while set_fan_speed_percent takes an integer argument and
accepts exactly the integers 0..100 (failing on out-of-range values and on
command failure). -/
theorem fan_write_rounds_to_one_decimal :
    PID.step pidCfgThird ⟨0, 0, 0⟩ 100 62 true (some 2040) =
      .output (92 / 3) ⟨100, 0, 2⟩ ∧
    roundTenth (92 / 3) = 307 / 10 ∧
    (roundTenth (92 / 3)).den = 10 ∧
    set_fan_speed_percent 31 true = 0 ∧
    set_fan_speed_percent 101 true = 1 ∧
    set_fan_speed_percent (-1) true = 1 ∧
    set_fan_speed_percent 31 false = 1 := by
  refine ⟨?_, ?_, ?_, ?_, ?_, ?_, ?_⟩
  · norm_num [PID.step, PID.unclampedOutput, PID.dt, PID.integral,
      get_fan_speed_percent, PIDConfig.min_fan_speed, PIDConfig.max_fan_speed,
      pidCfgThird, defaultFanSpeeds, defaultRpms, List.cons_ne_nil]
  · norm_num [roundTenth]
  · norm_num [roundTenth]
  · decide
  · decide
  · decide
  · decide

/-- Counterexample for C9: on a failed temperature read below the ceiling the
loop sleeps the full step_delay of 2 seconds and continues, which differs from
the claimed remainder max(0, step_delay - elapsed) = 1 for a tick that already
spent 1 second. -/
theorem sleep_after_failed_read_full_period :
    tick loopCfgDefault ⟨true, 0⟩ ⟨none, true, true, none, none, true, 1⟩ =
      .next loopCfgDefault.step_delay ⟨true, 1⟩ ∧
    loopCfgDefault.step_delay ≠ max 0 (loopCfgDefault.step_delay - 1) := by
  constructor
  · rw [tick_none_eq _ _ _ rfl, if_neg (by decide)]
  · have hmax : max (0 : ℚ) (loopCfgDefault.step_delay - 1) = 1 := by
      rw [max_eq_right]
      · norm_num [loopCfgDefault]
      · norm_num [loopCfgDefault]
    rw [hmax]
    norm_num [loopCfgDefault]

/-- Claim C9 as amended: the sleep duration is never negative when step_delay
is nonnegative, and every path through the loop body is settled exactly: a
failed temperature read below the ceiling, a failed vendor-control command, a
failed manual-control command, a failed rpm read, a missing PID output and a
negative PID output each sleep the full step_delay; a manual-mode tick that
reaches the bottom of the loop body and a vendor-mode tick sleep the
remainder max(0, step_delay - elapsed).  The fifth conjunct states which PID
section every successful-read tick runs, and the sixth settles each of that
section's paths. -/
theorem sleep_durations_amended (cfg : LoopConfig) (st : LoopState)
    (inp : TickInput) (hsd : 0 ≤ cfg.step_delay) :
    (∀ s st', tick cfg st inp = .next s st' → 0 ≤ s) ∧
    (inp.curr_temp = none → st.consecutive_errors + 1 < 10 →
      tick cfg st inp = .next cfg.step_delay
        ⟨st.manual_mode, st.consecutive_errors + 1⟩) ∧
    (∀ T : ℤ, inp.curr_temp = some T → st.manual_mode = true →
      cfg.max_temp < T → inp.dell_ok = false →
      tick cfg st inp = .next cfg.step_delay ⟨true, 0⟩) ∧
    (∀ T : ℤ, inp.curr_temp = some T → st.manual_mode = false →
      T ≤ cfg.max_temp - cfg.hysteresis → inp.manual_ok = false →
      tick cfg st inp = .next cfg.step_delay ⟨false, 0⟩) ∧
    (∀ T : ℤ, inp.curr_temp = some T →
      (st.manual_mode = true → cfg.max_temp < T → inp.dell_ok = true →
        tick cfg st inp = tickPidSection cfg ⟨false, 0⟩ inp) ∧
      (st.manual_mode = true → ¬cfg.max_temp < T →
        tick cfg st inp = tickPidSection cfg ⟨true, 0⟩ inp) ∧
      (st.manual_mode = false → T ≤ cfg.max_temp - cfg.hysteresis →
        inp.manual_ok = true →
        tick cfg st inp = tickPidSection cfg ⟨true, 0⟩ inp) ∧
      (st.manual_mode = false → ¬T ≤ cfg.max_temp - cfg.hysteresis →
        tick cfg st inp = tickPidSection cfg ⟨false, 0⟩ inp)) ∧
    (∀ s : LoopState,
      (s.manual_mode = true → inp.rpm = none →
        tickPidSection cfg s inp = .next cfg.step_delay s) ∧
      (s.manual_mode = true → ∀ r : ℤ, inp.rpm = some r → inp.pid_speed = none →
        tickPidSection cfg s inp = .next cfg.step_delay s) ∧
      (s.manual_mode = true → ∀ (r : ℤ) (v : ℚ), inp.rpm = some r →
        inp.pid_speed = some v → v < 0 →
        tickPidSection cfg s inp = .next cfg.step_delay s) ∧
      (s.manual_mode = true → ∀ (r : ℤ) (v : ℚ), inp.rpm = some r →
        inp.pid_speed = some v → ¬v < 0 →
        tickPidSection cfg s inp = .next (max 0 (cfg.step_delay - inp.elapsed)) s) ∧
      (s.manual_mode = false →
        tickPidSection cfg s inp = .next (max 0 (cfg.step_delay - inp.elapsed)) s)) := by
  refine ⟨?_, ?_, ?_, ?_, ?_, ?_⟩
  · intro s st' h
    rcases tick_next_sleep h with h1 | h1
    · rw [h1]
      exact hsd
    · rw [h1]
      exact le_max_left 0 _
  · intro hT hc
    rw [tick_none_eq _ _ _ hT, if_neg (by omega)]
  · intro T hT hm hmax hdell
    obtain ⟨tmp, dok, mok, rpmI, psI, wok, el⟩ := inp
    obtain ⟨m0, c0⟩ := st
    simp only at hT hm hdell
    subst hT
    subst hm
    subst hdell
    simp only [tick]
    rw [if_pos ⟨hmax, trivial⟩, if_neg (by simp)]
  · intro T hT hm hthr hman
    obtain ⟨tmp, dok, mok, rpmI, psI, wok, el⟩ := inp
    obtain ⟨m0, c0⟩ := st
    simp only at hT hm hman
    subst hT
    subst hm
    subst hman
    simp only [tick]
    rw [if_neg (by simp), if_pos ⟨trivial, hthr⟩, if_neg (by simp)]
  · intro T hT
    obtain ⟨tmp, dok, mok, rpmI, psI, wok, el⟩ := inp
    obtain ⟨m0, c0⟩ := st
    simp only at hT
    subst hT
    refine ⟨?_, ?_, ?_, ?_⟩
    · intro hm hmax hdell
      simp only at hm hdell
      subst hm
      subst hdell
      simp only [tick]
      rw [if_pos ⟨hmax, trivial⟩, if_pos trivial]
    · intro hm hnmax
      simp only at hm
      subst hm
      simp only [tick]
      rw [if_neg (fun hcon => hnmax hcon.1), if_neg (by simp)]
    · intro hm hthr hmok
      simp only at hm hmok
      subst hm
      subst hmok
      simp only [tick]
      rw [if_neg (by simp), if_pos ⟨trivial, hthr⟩, if_pos trivial]
    · intro hm hnthr
      simp only at hm
      subst hm
      simp only [tick]
      rw [if_neg (by simp), if_neg (fun hcon => hnthr hcon.2)]
  · intro s
    obtain ⟨tmp, dok, mok, rpmI, psI, wok, el⟩ := inp
    refine ⟨?_, ?_, ?_, ?_, ?_⟩
    · intro hm hrpm
      simp only at hrpm
      subst hrpm
      simp [tickPidSection, hm]
    · intro hm r hrpm hpid
      simp only at hrpm hpid
      subst hrpm
      subst hpid
      simp [tickPidSection, hm]
    · intro hm r v hrpm hpid hv
      simp only at hrpm hpid
      subst hrpm
      subst hpid
      simp [tickPidSection, hm, hv]
    · intro hm r v hrpm hpid hv
      simp only at hrpm hpid
      subst hrpm
      subst hpid
      simp [tickPidSection, hm, hv]
    · intro hm
      exact tickPidSection_vendor cfg s ⟨tmp, dok, mok, rpmI, psI, wok, el⟩ hm

/-- Witness for C9 as amended: a failed read at counter 0 sleeps the full
period of 2; a manual-mode tick that completes its PID section at elapsed 1
sleeps the remainder max(0, 2 - 1); and a vendor dead-band tick at 78 degrees
runs the vendor PID section. -/
theorem sleep_durations_amended_witness :
    tick loopCfgDefault ⟨true, 0⟩ ⟨none, true, true, none, none, true, 1⟩ =
      .next loopCfgDefault.step_delay ⟨true, 1⟩ ∧
    tickPidSection loopCfgDefault ⟨true, 0⟩
        ⟨some 78, true, true, some 2040, some 30, true, 1⟩ =
      .next (max 0 (loopCfgDefault.step_delay - 1)) ⟨true, 0⟩ ∧
    tick loopCfgDefault ⟨false, 0⟩ ⟨some 78, true, true, some 2040, some 30, true, 1⟩ =
      tickPidSection loopCfgDefault ⟨false, 0⟩
        ⟨some 78, true, true, some 2040, some 30, true, 1⟩ :=
  ⟨(sleep_durations_amended loopCfgDefault ⟨true, 0⟩
      ⟨none, true, true, none, none, true, 1⟩
      (by norm_num [loopCfgDefault])).2.1 rfl (by decide),
   ((sleep_durations_amended loopCfgDefault ⟨true, 0⟩
      ⟨some 78, true, true, some 2040, some 30, true, 1⟩
      (by norm_num [loopCfgDefault])).2.2.2.2.2 ⟨true, 0⟩).2.2.2.1 rfl 2040 30
      rfl rfl (by norm_num),
   ((sleep_durations_amended loopCfgDefault ⟨false, 0⟩
      ⟨some 78, true, true, some 2040, some 30, true, 1⟩
      (by norm_num [loopCfgDefault])).2.2.2.2.1 78 rfl).2.2.2 rfl (by decide)⟩

/-- Counterexample for C10: the curve [0, -30, 10] over rpms [1000, 2000, 3000]
meets every precondition stated in the claim (non-empty, equal length, at
least 2 points, strictly increasing rpms, tables from
get_slopes_and_intercepts), yet rpm 1500 interpolates to -15, which lies
outside [fan_speeds[0], fan_speeds[last]] = [0, 10] and is negative, so the
loop's rejection branch for a negative PID fan speed is reachable. -/
theorem range_claim_fails_without_monotonicity :
    ([0, -30, 10] : List ℤ) ≠ [] ∧ ([1000, 2000, 3000] : List ℤ) ≠ [] ∧
    ([0, -30, 10] : List ℤ).length = ([1000, 2000, 3000] : List ℤ).length ∧
    2 ≤ ([0, -30, 10] : List ℤ).length ∧
    strictIncrOn [1000, 2000, 3000] ∧
    get_fan_speed_percent (some 1500) [0, -30, 10] [1000, 2000, 3000]
        (get_slopes_and_intercepts [0, -30, 10] [1000, 2000, 3000]).1
        (get_slopes_and_intercepts [0, -30, 10] [1000, 2000, 3000]).2 = -15 ∧
    ¬(((([0, -30, 10] : List ℤ).getI 0 : ℤ) : ℚ) ≤ -15 ∧
        (-15 : ℚ) ≤
          ((([0, -30, 10] : List ℤ).getI (([0, -30, 10] : List ℤ).length - 1) : ℤ) : ℚ)) ∧
    (-15 : ℚ) < 0 := by
  refine ⟨by decide, by decide, by decide, by decide, by decide, ?_, ?_, by norm_num⟩
  · norm_num [get_fan_speed_percent, get_slopes_and_intercepts, slopeAt, interceptAt,
      interp_from, List.range', List.cons_ne_nil, List.getI_cons_zero,
      List.getI_cons_succ]
  · norm_num [List.getI_cons_zero]

/-- Claim C10 as amended: with the additional hypotheses that the calibration
percentages are monotone non-decreasing and the first percentage is
nonnegative, get_fan_speed_percent with the tables built by
get_slopes_and_intercepts always returns a value in
[fan_speeds[0], fan_speeds[last]]; the value therefore is never the -1 error
result and never negative, and every fan speed produced by a pid.PID.step over
such a curve is nonnegative, so the control loop's rejection branch for a
negative PID fan speed cannot fire. -/
theorem curve_range_and_no_error (fs rs : List ℤ) (hlen : fs.length = rs.length)
    (h2 : 2 ≤ rs.length) (hinc : strictIncrOn rs) (hmono : monoNondecOn fs)
    (h0 : 0 ≤ fs.getI 0) :
    (∀ rpm : ℤ,
      (fs.getI 0 : ℚ) ≤ get_fan_speed_percent (some rpm) fs rs
          (get_slopes_and_intercepts fs rs).1 (get_slopes_and_intercepts fs rs).2 ∧
      get_fan_speed_percent (some rpm) fs rs (get_slopes_and_intercepts fs rs).1
          (get_slopes_and_intercepts fs rs).2 ≤ (fs.getI (fs.length - 1) : ℚ) ∧
      get_fan_speed_percent (some rpm) fs rs (get_slopes_and_intercepts fs rs).1
          (get_slopes_and_intercepts fs rs).2 ≠ -1 ∧
      0 ≤ get_fan_speed_percent (some rpm) fs rs (get_slopes_and_intercepts fs rs).1
          (get_slopes_and_intercepts fs rs).2) ∧
    (∀ cfg : PIDConfig, cfg.fan_speeds = fs →
      ∀ (st : PIDState) (t : ℚ) (temp : ℤ) (dok : Bool) (rp : Option ℤ)
        (v : ℚ) (st' : PIDState),
        PID.step cfg st t temp dok rp = .output v st' → ¬v < 0) := by
  have hrs : rs ≠ [] := by
    intro h
    rw [h] at h2
    simp at h2
  constructor
  · intro rpm
    obtain ⟨hl, hu⟩ := f_bounds hlen hrs hinc hmono rpm
    have h0q : (0 : ℚ) ≤ (fs.getI 0 : ℚ) := by exact_mod_cast h0
    refine ⟨hl, hu, ?_, le_trans h0q hl⟩
    intro heq
    rw [heq] at hl
    linarith
  · intro cfg hcfg st t temp dok rp v st' hstep
    have hfs2 : 2 ≤ fs.length := by omega
    have hminmax : cfg.min_fan_speed ≤ cfg.max_fan_speed := by
      unfold PIDConfig.min_fan_speed PIDConfig.max_fan_speed
      rw [hcfg]
      exact_mod_cast monoNondecOn_getI hmono (by omega) (by omega)
    have hmin0 : (0 : ℚ) ≤ cfg.min_fan_speed := by
      unfold PIDConfig.min_fan_speed
      rw [hcfg]
      exact_mod_cast h0
    rcases step_out_cases hstep with ⟨_, hv, _⟩ | ⟨_, _, hv, _⟩ | ⟨hA, _, hv, _⟩
    · subst hv
      exact not_lt.2 hmin0
    · subst hv
      exact not_lt.2 (le_trans hmin0 hminmax)
    · subst hv
      exact not_lt.2 (le_trans hmin0 (not_lt.1 hA))

/-- Witness for C10 as amended: the default curve at rpm 2200. -/
theorem curve_range_and_no_error_witness :
    (defaultFanSpeeds.getI 0 : ℚ) ≤ get_fan_speed_percent (some 2200)
        defaultFanSpeeds defaultRpms
        (get_slopes_and_intercepts defaultFanSpeeds defaultRpms).1
        (get_slopes_and_intercepts defaultFanSpeeds defaultRpms).2 ∧
    get_fan_speed_percent (some 2200) defaultFanSpeeds defaultRpms
        (get_slopes_and_intercepts defaultFanSpeeds defaultRpms).1
        (get_slopes_and_intercepts defaultFanSpeeds defaultRpms).2 ≤
      (defaultFanSpeeds.getI (defaultFanSpeeds.length - 1) : ℚ) ∧
    get_fan_speed_percent (some 2200) defaultFanSpeeds defaultRpms
        (get_slopes_and_intercepts defaultFanSpeeds defaultRpms).1
        (get_slopes_and_intercepts defaultFanSpeeds defaultRpms).2 ≠ -1 ∧
    0 ≤ get_fan_speed_percent (some 2200) defaultFanSpeeds defaultRpms
        (get_slopes_and_intercepts defaultFanSpeeds defaultRpms).1
        (get_slopes_and_intercepts defaultFanSpeeds defaultRpms).2 :=
  (curve_range_and_no_error defaultFanSpeeds defaultRpms rfl (by decide) (by decide)
    (by decide) (by decide)).1 2200
